import Mathlib

/-!
Verification development for the jotai-learn repository.

The repository implements the cell-construction API (`atom`, `defaultRead`,
`defaultWrite` in vanilla/atom.ts) and declares the `Store` interface, whose
`createStore` / `getDefaultStore` entry points are Day-2 stubs that throw.
Definitions below marked "From the source" are shallow embeddings of the
TypeScript in vanilla/atom.ts and vanilla/store.ts; definitions marked
"Modelled from the spec" embed the store engine of spec sections 4.1-4.3,
which the repository describes but does not implement.
-/

namespace JotaiLearn

/-- JS runtime values handled by the embedding: undefined, numbers, strings
and booleans are enough for every cell value the claims mention. -/
inductive Val where
  | undefined
  | num (n : Int)
  | str (s : String)
  | boolV (b : Bool)
deriving DecidableEq, Repr

/-- From the source (typeUtils.ts): `SetStateAction<Value> = Value | ((prev: Value) => Value)`.
The constructor records the JS `typeof arg === 'function'` distinction. -/
inductive SetStateAction where
  | value (v : Val)
  | func (f : Val → Val)

/-- Store-side identity of a cell: the model addresses cells by an index,
playing the role of JS object identity of the descriptor. -/
abbrev AtomId := Nat

/-- Error taxonomy of spec section 7 (the synchronous part), plus `noFuel`,
an artefact of the fuelled evaluator that no theorem ever produces. -/
inductive StoreErr where
  | notWritable
  | cyclicDependency
  | computeFailure (msg : String)
  | noFuel
deriving DecidableEq, Repr

deriving instance DecidableEq for Except

/-- Modelled from the spec: section 3 Cell Runtime State (synchronous part):
version counter, cached value-or-error, dependency set with observed versions.
Mount/listener bookkeeping is omitted: no claim depends on it. -/
structure CellState where
  version : Nat
  cached : Option (Except StoreErr Val)
  deps : List (AtomId × Nat)
deriving DecidableEq, Repr

instance : Inhabited CellState := ⟨⟨0, none, []⟩⟩

/-- The store's mutable state: one runtime record per touched cell. -/
abbrev StoreSt := List (AtomId × CellState)

/-- Dependency observations collected by one compute pass. -/
abbrev Tracked := List (AtomId × Nat)

abbrev RunSt := StoreSt × Tracked

abbrev CompRes := Except StoreErr Val × RunSt

/-- Tracked reader handed to a derivation. -/
abbrev GetterM := AtomId → RunSt → CompRes

/-- A derivation body: the compute function of a derived cell. -/
abbrev ComputeFn := GetterM → RunSt → CompRes

/-- Untracked reader handed to a write function. -/
abbrev WGetter := AtomId → StoreSt → Except StoreErr Val × StoreSt

/-- Setter handed to a write function. -/
abbrev WSetter := AtomId → SetStateAction → StoreSt → Except StoreErr Val × StoreSt

/-- The `read` slot of a descriptor: either the source's `defaultRead`
(this-bound, installed on primitive cells) or a user compute function. -/
inductive ComputeSpec where
  | defaultRead
  | custom (f : ComputeFn)

/-- The `write` slot of a descriptor: either the source's `defaultWrite`
(the default primitive setter) or a user write function. -/
inductive WriteSpec where
  | defaultWrite
  | custom (f : WGetter → WSetter → SetStateAction → StoreSt → Except StoreErr Val × StoreSt)

/-- From the source (atom.ts): the descriptor object built by `atom()`.
`key` is the string identity, `init` the primitive-cell sentinel, `read` and
`write` the config slots, `debugLabel` the optional diagnostic label
(assigned by the user after construction, as in the source). -/
structure AtomConfig where
  key : String
  init : Option Val := none
  read : ComputeSpec
  write : Option WriteSpec := none
  debugLabel : Option String := none

/-- The first argument of `atom()`: a plain value (including `undefined`
for a call with no argument) or a read function; the source dispatches on
`typeof read === 'function'`. -/
inductive AtomReadArg where
  | value (v : Val)
  | fn (f : ComputeFn)

/-- Whether the first argument of `atom()` is a function. -/
def AtomReadArg.isFn : AtomReadArg → Bool
  | .value _ => false
  | .fn _ => true

/-- From the source (atom.ts `atom()`): increments the global `keyCount`,
builds the key string, dispatches on `typeof read === 'function'`, installs
`defaultRead`/`defaultWrite` on primitive cells and lets an explicit `write`
argument override the default. The global counter is threaded explicitly:
the function takes the current counter and returns the updated one. -/
def atom (keyCount : Nat) (read : AtomReadArg) (write : Option WriteSpec) :
    AtomConfig × Nat :=
  let kc := keyCount + 1
  let key := "atom" ++ Nat.repr kc
  let config : AtomConfig :=
    match read with
    | .fn f => { key := key, read := .custom f }
    | .value v =>
      { key := key, init := some v, read := .defaultRead, write := some .defaultWrite }
  match write with
  | some w => ({ config with write := some w }, kc)
  | none => (config, kc)

/-- From the source (atom.ts `config.toString`): outside production mode a
truthy `debugLabel` renders as `key:label`, otherwise the key alone. -/
def atomToString (mode : String) (c : AtomConfig) : String :=
  match c.debugLabel with
  | some l => if mode ≠ "production" ∧ l ≠ "" then c.key ++ ":" ++ l else c.key
  | none => c.key

/-- Look a cell's runtime state up in the store. -/
def lookupCell (st : StoreSt) (x : AtomId) : Option CellState :=
  match st with
  | [] => none
  | (y, c) :: rest => if y = x then some c else lookupCell rest x

/-- Drop every record for cell `x`. -/
def eraseCell (st : StoreSt) (x : AtomId) : StoreSt :=
  match st with
  | [] => []
  | (y, c) :: rest => if y = x then eraseCell rest x else (y, c) :: eraseCell rest x

/-- Replace cell `x`'s runtime state. -/
def setCell (st : StoreSt) (x : AtomId) (c : CellState) : StoreSt :=
  (x, c) :: eraseCell st x

/-- A cell's current version; 0 when the cell has never been touched. -/
def currentVersion (st : StoreSt) (x : AtomId) : Nat :=
  match lookupCell st x with
  | some c => c.version
  | none => 0

/-- Modelled from the spec: section 3 invariant - a cached entry is usable iff
every recorded dependency version still equals the dependency's current
version; the engine never compares values. -/
def depsFresh (st : StoreSt) (deps : List (AtomId × Nat)) : Bool :=
  deps.all (fun p => currentVersion st p.1 == p.2)

/-- Modelled from the spec: section 4.3 step 3 - directly setting a primitive
cell bumps its version and updates the cached value; invalidation of
dependents is derived from the version mismatch, nothing else changes. -/
def setPrimitive (st : StoreSt) (x : AtomId) (v : Val) : StoreSt :=
  let cs := (lookupCell st x).getD default
  setCell st x { cs with version := cs.version + 1, cached := some (.ok v) }

/-- Modelled from the spec: section 4.1 Dependency Tracker. The tracked
reader for the compute pass of cell `x`: a read of a cell currently being
computed is a cycle and fails with `CyclicDependency`, except the implicit
itself-read of a primitive cell, which returns the stored value (or `init`
on first read) and is recorded as a dependency (section 3 invariant on
primitive cells); any other read recursively ensures the target is current
through `reader` and records the observed version. -/
def mkGetter (env : AtomId → AtomConfig)
    (reader : List AtomId → AtomId → StoreSt → Except StoreErr Val × StoreSt)
    (visiting : List AtomId) (x : AtomId) : GetterM := fun y s =>
  if y = x ∨ y ∈ visiting then
    if y = x ∧ (env x).init.isSome then
      let r : Except StoreErr Val :=
        match lookupCell s.1 x with
        | some cs =>
          match cs.cached with
          | some r0 => r0
          | none => .ok ((env x).init.getD .undefined)
        | none => .ok ((env x).init.getD .undefined)
      (r, (s.1, (x, currentVersion s.1 x) :: s.2))
    else (.error .cyclicDependency, s)
  else
    let p := reader (x :: visiting) y s.1
    (p.1, (p.2, (y, currentVersion p.2 y) :: s.2))

/-- From the source (atom.ts `defaultRead`): `get(this)` - the default
compute of a primitive cell reads the cell itself and nothing else. -/
def defaultRead (self : AtomId) (get : GetterM) : RunSt → CompRes :=
  get self

/-- Modelled from the spec: section 4.2 Recomputation Engine (synchronous
part), with fuel making the recursion structural. Reading cell `x`: create
its runtime state lazily; serve the cached entry (value or error) when every
recorded dependency version is still current; otherwise recompute - publish
the bumped version, run the descriptor's read with a tracked reader, then
store the result and replace the dependency set with exactly what this pass
tracked. Errors thrown by the compute are captured as the cached error and
returned to the caller. -/
def readAtomAux (env : AtomId → AtomConfig) :
    Nat → List AtomId → AtomId → StoreSt → Except StoreErr Val × StoreSt
  | 0, _, _, st => (.error .noFuel, st)
  | fuel + 1, visiting, x, st =>
    let cs := (lookupCell st x).getD default
    let recompute :=
      let ver := cs.version + 1
      let st1 := setCell st x { cs with version := ver }
      let getter := mkGetter env (readAtomAux env fuel) visiting x
      let body :=
        match (env x).read with
        | .defaultRead => defaultRead x getter
        | .custom f => f getter
      let res := body (st1, [])
      let cs2 := (lookupCell res.2.1 x).getD default
      (res.1, setCell res.2.1 x { cs2 with cached := some res.1, deps := res.2.2.reverse })
    match cs.cached with
    | some r => if depsFresh st cs.deps then (r, st) else recompute
    | none => recompute

/-- From the source (atom.ts `defaultWrite`):
`set(this, typeof arg === 'function' ? arg(get(this)) : arg)` - a function
argument is applied to the prior value obtained by `get(this)`, and the
resolved value is handed to the primitive base setter. -/
def defaultWrite (self : AtomId) (get : WGetter)
    (set : AtomId → Val → StoreSt → Except StoreErr Val × StoreSt)
    (arg : SetStateAction) (st : StoreSt) : Except StoreErr Val × StoreSt :=
  match arg with
  | .func f =>
    let p := get self st
    match p.1 with
    | .ok prev => set self (f prev) p.2
    | .error e => (.error e, p.2)
  | .value v => set self v st

/-- Modelled from the spec: section 4.3 Write/Propagation Engine (synchronous
part). Writing cell `x`: a cell without a write slot fails with
`NotWritable` and mutates nothing; the default primitive setter is the
source's `defaultWrite` over the base primitive set of step 3; a custom
write runs with an untracked reader and a setter that recursively re-enters
this operation. Listener notification is omitted: no claim depends on it. -/
def writeAtomAux (env : AtomId → AtomConfig) :
    Nat → AtomId → SetStateAction → StoreSt → Except StoreErr Val × StoreSt
  | 0, _, _, st => (.error .noFuel, st)
  | fuel + 1, x, arg, st =>
    match (env x).write with
    | none => (.error .notWritable, st)
    | some .defaultWrite =>
      defaultWrite x (fun y st0 => readAtomAux env fuel [] y st0)
        (fun y v st0 => (.ok .undefined, setPrimitive st0 y v)) arg st
    | some (.custom w) =>
      w (fun y st0 => readAtomAux env fuel [] y st0)
        (fun y a st0 => writeAtomAux env fuel y a st0) arg st

/-- The store value the interface in store.ts promises; never obtainable from
the repository's entry points. -/
structure Store where
  state : StoreSt

/-- From the source (store.ts `createStore`): a Day-2 stub that throws. -/
def createStore : Except String Store :=
  .error ("createStore will be implemented in Day 2")

/-- From the source (store.ts `getDefaultStore`): a Day-2 stub that throws. -/
def getDefaultStore : Except String Store :=
  .error ("getDefaultStore will be implemented in Day 2")

/-- Reassign every descriptor's debug label, leaving key, init, read and
write untouched: the label-only variation of an environment. -/
def setLabels (lab : AtomId → Option String) (env : AtomId → AtomConfig) :
    AtomId → AtomConfig :=
  fun i => { env i with debugLabel := lab i }

/-- A compute that propagates its input unchanged; building block for the
pass-through derivations of the cycle scenarios. -/
def passThrough (p : CompRes) : CompRes :=
  match p.1 with
  | .ok v => (.ok v, p.2)
  | .error e => (.error e, p.2)

/-- A compute that first performs a tracked read of cell `target` and feeds
the value into an arbitrary continuation `k`; the shape of any derivation
that begins by reading a fixed cell. -/
def readThen (target : AtomId) (k : Val → RunSt → CompRes) : ComputeFn :=
  fun get s =>
    let p := get target s
    match p.1 with
    | .ok v => k v p.2
    | .error e => (.error e, p.2)

/-- Scenario cell A of the spec: `primitive(1)`, built by `atom`. -/
def cfgA : AtomConfig := (atom 0 (.value (.num 1)) none).1

/-- Scenario cell B of the spec: `derived(get => get(A) * 2)`, built by
`atom`; cell A lives at store identity 1. -/
def doubleCompute : ComputeFn := fun get s =>
  let p := get 1 s
  match p.1 with
  | .ok (.num n) => (.ok (.num (n * 2)), p.2)
  | .ok _ => (.error (.computeFailure ("not a number")), p.2)
  | .error e => (.error e, p.2)

def cfgB : AtomConfig := (atom 1 (.fn doubleCompute) none).1

/-- Placeholder config for identities never handed out. -/
def missingCfg : AtomConfig :=
  { key := "", read := .custom (fun _ s => (.error (.computeFailure ("unknown atom")), s)) }

/-- The two-cell environment of the spec scenario: A at 1, B at 2. -/
def envAB : AtomId → AtomConfig := fun i =>
  if i = 1 then cfgA else if i = 2 then cfgB else missingCfg

/-- Transitive-cycle environment: cell 1 reads cell 2, cell 2 reads cell 1
(a two-cell cycle), and cell 3 is an innocent dependent reading cell 1. -/
def envCyc : AtomId → AtomConfig := fun i =>
  if i = 1 then { key := "atom1", read := .custom (fun get s => passThrough (get 2 s)) }
  else if i = 2 then { key := "atom2", read := .custom (fun get s => passThrough (get 1 s)) }
  else if i = 3 then { key := "atom3", read := .custom (fun get s => passThrough (get 1 s)) }
  else missingCfg

/-- One decimal digit step of the verified parser. -/
def decStep (a : Nat) (c : Char) : Nat := a * 10 + (c.toNat - 48)

/-- Verified decimal parser on character lists: reads back the digits
rendered by `Nat.repr`; used to prove the atom keys injective. -/
def parseDecL (l : List Char) : Nat := l.foldl decStep 0

/-- Single-cell environment: the primitive cell `atom(1)` at identity 1. -/
def envOne : AtomId → AtomConfig := fun i => if i = 1 then cfgA else missingCfg

/-- Concrete previous-value function for the functional-update scenario. -/
def incVal : Val → Val := fun v =>
  match v with
  | .num n => .num (n + 1)
  | _ => .undefined

/-- Identity continuation for `readThen`. -/
def idCont : Val → RunSt → CompRes := fun v s => (.ok v, s)

/-- Environment with one derived cell whose compute reads the cell itself. -/
def envSelf : AtomId → AtomConfig := fun i =>
  if i = 1 then { key := "atom1", read := .custom (readThen 1 idCont) } else missingCfg

/-- A non-production mode string for exercising `atomToString`. -/
def devMode : String := "development"

/-! ## Helper lemmas -/

theorem digitChar_toNat (d : Nat) (h : d < 10) : (Nat.digitChar d).toNat - 48 = d := by
  interval_cases d <;> rfl

theorem foldl_toDigitsCore (f : Nat) :
    ∀ (n : Nat) (l : List Char), n < f →
      (Nat.toDigitsCore 10 f n l).foldl decStep 0 = l.foldl decStep n := by
  induction f with
  | zero => intro n l h; omega
  | succ f ih =>
    intro n l h
    show (Nat.toDigitsCore 10 (f + 1) n l).foldl decStep 0 = _
    rw [Nat.toDigitsCore]
    by_cases h0 : n / 10 = 0
    · rw [if_pos h0]
      have hn : n < 10 := by omega
      rw [Nat.mod_eq_of_lt hn]
      simp only [List.foldl]
      have hd : decStep 0 (Nat.digitChar n) = n := by
        simp [decStep, digitChar_toNat n hn]
      rw [hd]
    · have hn1 : 1 ≤ n := by omega
      have hlt : n / 10 < f := by
        have := Nat.div_lt_self hn1 (show 1 < 10 by norm_num)
        omega
      rw [if_neg h0]
      rw [ih (n / 10) (Nat.digitChar (n % 10) :: l) hlt]
      simp only [List.foldl]
      have hd : decStep (n / 10) (Nat.digitChar (n % 10)) = n := by
        have hm : n % 10 < 10 := Nat.mod_lt n (by norm_num)
        simp [decStep, digitChar_toNat (n % 10) hm]
        omega
      rw [hd]

theorem parseDecL_repr (n : Nat) : parseDecL (Nat.repr n).data = n := by
  show ((Nat.repr n).data).foldl decStep 0 = n
  have h : (Nat.repr n).data = Nat.toDigitsCore 10 (n + 1) n [] := rfl
  rw [h]
  exact foldl_toDigitsCore (n + 1) n [] (Nat.lt_succ_self n)

theorem atomKey_ne {a b : Nat} (h : a ≠ b) :
    (("atom" ++ Nat.repr a) == ("atom" ++ Nat.repr b)) = false := by
  rw [beq_eq_false_iff_ne]
  intro he
  apply h
  have hd := congrArg String.data he
  simp only [String.data_append] at hd
  have hl := List.append_cancel_left hd
  have hp := congrArg parseDecL hl
  rwa [parseDecL_repr, parseDecL_repr] at hp

theorem lookupCell_eraseCell {st : StoreSt} {x y : AtomId} (h : y ≠ x) :
    lookupCell (eraseCell st x) y = lookupCell st y := by
  induction st with
  | nil => rfl
  | cons p rest ih =>
    obtain ⟨z, c⟩ := p
    by_cases hz : z = x
    · subst hz
      rw [eraseCell, if_pos rfl, lookupCell, if_neg (fun hzy => h hzy.symm)]
      exact ih
    · rw [eraseCell, if_neg hz, lookupCell, lookupCell]
      by_cases hzy : z = y
      · rw [if_pos hzy, if_pos hzy]
      · rw [if_neg hzy, if_neg hzy]
        exact ih

theorem lookupCell_setCell_self {st : StoreSt} {x : AtomId} {c : CellState} :
    lookupCell (setCell st x c) x = some c := by
  simp [setCell, lookupCell]

theorem lookupCell_setCell_ne {st : StoreSt} {x y : AtomId} {c : CellState} (h : y ≠ x) :
    lookupCell (setCell st x c) y = lookupCell st y := by
  rw [setCell, lookupCell, if_neg (fun hxy => h hxy.symm)]
  exact lookupCell_eraseCell h

/-- Reading a primitive cell whose runtime state caches the value `v`
returns `v`, whether the cached entry is served directly or revalidated by a
recompute through the default read's itself-read. -/
theorem read_cached_primitive (env : AtomId → AtomConfig) (P : AtomId) (fuel : Nat)
    (v : Val) (st : StoreSt) (cs : CellState)
    (hr : (env P).read = .defaultRead) (hi : (env P).init.isSome)
    (hlook : lookupCell st P = some cs) (hcache : cs.cached = some (.ok v)) :
    (readAtomAux env (fuel + 1) [] P st).1 = .ok v := by
  rw [readAtomAux]
  simp only [hlook, Option.getD_some, hcache]
  by_cases hf : depsFresh st cs.deps
  · simp [hf]
  · simp only [hf, Bool.false_eq_true, if_false, hr]
    simp [mkGetter, defaultRead, lookupCell_setCell_self, hcache, hi]

/-- Operations of the modelled store depend only on the key-independent
slots `read`, `init` and `write` of each descriptor: environments agreeing
there produce identical reads. -/
theorem readAtomAux_congr (env1 env2 : AtomId → AtomConfig)
    (h : ∀ i, (env1 i).read = (env2 i).read ∧ (env1 i).init = (env2 i).init ∧
      (env1 i).write = (env2 i).write) :
    ∀ (fuel : Nat) (visiting : List AtomId) (x : AtomId) (st : StoreSt),
      readAtomAux env1 fuel visiting x st = readAtomAux env2 fuel visiting x st := by
  intro fuel
  induction fuel with
  | zero => intro visiting x st; rfl
  | succ fuel ih =>
    intro visiting x st
    have hred : readAtomAux env1 fuel = readAtomAux env2 fuel :=
      funext fun a => funext fun b => funext fun c => ih a b c
    rw [readAtomAux, readAtomAux]
    rw [show mkGetter env1 (readAtomAux env1 fuel) visiting x
        = mkGetter env2 (readAtomAux env2 fuel) visiting x by
      rw [hred]
      funext y s
      simp only [mkGetter, (h x).2.1]]
    rw [(h x).1]

/-- Write-side companion of `readAtomAux_congr`. -/
theorem writeAtomAux_congr (env1 env2 : AtomId → AtomConfig)
    (h : ∀ i, (env1 i).read = (env2 i).read ∧ (env1 i).init = (env2 i).init ∧
      (env1 i).write = (env2 i).write) :
    ∀ (fuel : Nat) (x : AtomId) (arg : SetStateAction) (st : StoreSt),
      writeAtomAux env1 fuel x arg st = writeAtomAux env2 fuel x arg st := by
  intro fuel
  induction fuel with
  | zero => intro x arg st; rfl
  | succ fuel ih =>
    intro x arg st
    have hred : (fun y st0 => readAtomAux env1 fuel [] y st0)
        = (fun y st0 => readAtomAux env2 fuel [] y st0) :=
      funext fun y => funext fun st0 => readAtomAux_congr env1 env2 h fuel [] y st0
    have hwrt : (fun y a st0 => writeAtomAux env1 fuel y a st0)
        = (fun y a st0 => writeAtomAux env2 fuel y a st0) :=
      funext fun y => funext fun a => funext fun st0 => ih y a st0
    rw [writeAtomAux, writeAtomAux, (h x).2.2, hred, hwrt]

/-- Key and counter produced by one `atom` call, uniform in the arguments. -/
theorem atom_key_counter (n : Nat) (r : AtomReadArg) (w : Option WriteSpec) :
    (atom n r w).1.key = "atom" ++ Nat.repr (n + 1) ∧ (atom n r w).2 = n + 1 := by
  cases r <;> cases w <;> simp [atom]

/-! ## Claim theorems -/

/-- C1: with `A = primitive(1)` at identity 1 and `B = derived(get => get(A) * 2)`
at identity 2 (both descriptors built by `atom`), `read(B)` returns 2; a
`write(A, 5)` succeeds; a subsequent `read(B)` returns 10. -/
theorem scenario_primitive_derived_readback :
    (readAtomAux envAB 10 [] 2 []).1 = .ok (.num 2) ∧
    (writeAtomAux envAB 10 1 (.value (.num 5)) (readAtomAux envAB 10 [] 2 []).2).1 =
      .ok .undefined ∧
    (readAtomAux envAB 10 [] 2
      (writeAtomAux envAB 10 1 (.value (.num 5)) (readAtomAux envAB 10 [] 2 []).2).2).1 =
      .ok (.num 10) := by
  refine ⟨by decide, by decide, by decide⟩

/-- C2: a descriptor built by `atom` carries the `init` sentinel iff the
first argument is not a function; when it is a function the descriptor has
no `init` and its read is exactly that function; when it is a value the
default read is installed, `init` holds the value, and without an explicit
write argument the default write is installed. -/
theorem atom_init_sentinel (kc : Nat) (r : AtomReadArg) (w : Option WriteSpec) :
    ((atom kc r w).1.init.isSome ↔ r.isFn = false) ∧
    (∀ f, r = .fn f → (atom kc r w).1.init = none ∧ (atom kc r w).1.read = .custom f) ∧
    (∀ v, r = .value v → (atom kc r w).1.init = some v ∧
      (atom kc r w).1.read = .defaultRead ∧
      (w = none → (atom kc r w).1.write = some .defaultWrite)) := by
  cases r <;> cases w <;> simp [atom, AtomReadArg.isFn]

/-- Witness for C2 at concrete inputs: a derived and a primitive descriptor. -/
theorem atom_init_sentinel_witness :
    ((atom 0 (.fn doubleCompute) none).1.init = none ∧
     (atom 0 (.fn doubleCompute) none).1.read = .custom doubleCompute) ∧
    ((atom 5 (.value (.num 3)) none).1.init = some (.num 3) ∧
     (atom 5 (.value (.num 3)) none).1.read = .defaultRead ∧
     (atom 5 (.value (.num 3)) none).1.write = some .defaultWrite) := by
  refine ⟨(atom_init_sentinel 0 (.fn doubleCompute) none).2.1 doubleCompute rfl, ?_⟩
  have h := (atom_init_sentinel 5 (.value (.num 3)) none).2.2 (.num 3) rfl
  exact ⟨h.1, h.2.1, h.2.2 rfl⟩

/-- C3: writing a primitive cell with a plain value `v` succeeds and a
subsequent read returns `v`; writing with a function applies it to the prior
value `p0` (the value a read would have returned), stores the result, and a
subsequent read returns it. -/
theorem primitive_write_then_read (env : AtomId → AtomConfig) (P : AtomId) (fuel : Nat)
    (st : StoreSt) (v : Val) (f : Val → Val) (p0 : Val)
    (hr : (env P).read = .defaultRead) (hw : (env P).write = some .defaultWrite)
    (hi : (env P).init.isSome)
    (hprev : (readAtomAux env (fuel + 1) [] P st).1 = .ok p0) :
    ((writeAtomAux env (fuel + 1) P (.value v) st).1 = .ok .undefined ∧
     (readAtomAux env (fuel + 1) [] P
       (writeAtomAux env (fuel + 1) P (.value v) st).2).1 = .ok v) ∧
    ((writeAtomAux env (fuel + 2) P (.func f) st).1 = .ok .undefined ∧
     (lookupCell (writeAtomAux env (fuel + 2) P (.func f) st).2 P).map
       (fun c => c.cached) = some (some (.ok (f p0))) ∧
     (readAtomAux env (fuel + 1) [] P
       (writeAtomAux env (fuel + 2) P (.func f) st).2).1 = .ok (f p0)) := by
  constructor
  · rw [writeAtomAux, hw]
    refine ⟨rfl, ?_⟩
    exact read_cached_primitive env P fuel v _ _ hr hi lookupCell_setCell_self rfl
  · rw [writeAtomAux, hw]
    rw [defaultWrite]
    simp only [hprev]
    refine ⟨trivial, ?_, ?_⟩
    · simp [setPrimitive, lookupCell_setCell_self]
    · exact read_cached_primitive env P fuel (f p0) _ _ hr hi lookupCell_setCell_self rfl

/-- Witness for C3: the primitive cell `atom(1)` written with the value 7
and with the successor function. -/
theorem primitive_write_then_read_witness :
    ((writeAtomAux envOne 2 1 (.value (.num 7)) []).1 = .ok .undefined ∧
     (readAtomAux envOne 2 [] 1 (writeAtomAux envOne 2 1 (.value (.num 7)) []).2).1 =
       .ok (.num 7)) ∧
    ((writeAtomAux envOne 3 1 (.func incVal) []).1 = .ok .undefined ∧
     (lookupCell (writeAtomAux envOne 3 1 (.func incVal) []).2 1).map
       (fun c => c.cached) = some (some (.ok (incVal (.num 1)))) ∧
     (readAtomAux envOne 2 [] 1 (writeAtomAux envOne 3 1 (.func incVal) []).2).1 =
       .ok (incVal (.num 1))) :=
  primitive_write_then_read envOne 1 1 [] (.num 7) incVal (.num 1) rfl rfl rfl (by decide)

/-- C4: writing a cell without a write slot (in particular any derived cell
built by `atom` from a read function alone) fails with `NotWritable`,
surfacing the error to the caller and leaving the store state untouched. -/
theorem write_not_writable (env : AtomId → AtomConfig) (fuel : Nat) (x : AtomId)
    (arg : SetStateAction) (st : StoreSt) (hw : (env x).write = none) :
    writeAtomAux env (fuel + 1) x arg st = (.error .notWritable, st) ∧
    (∀ kc f, ((atom kc (.fn f) none).1).write = none) := by
  constructor
  · rw [writeAtomAux, hw]
  · intro kc f
    simp [atom]

/-- Witness for C4: writing the read-only derived cell B of the scenario. -/
theorem write_not_writable_witness :
    writeAtomAux envAB 5 2 (.value (.num 1)) [] = (.error .notWritable, []) ∧
    ((atom 0 (.fn doubleCompute) none).1).write = none := by
  have h := write_not_writable envAB 4 2 (.value (.num 1)) [] rfl
  exact ⟨h.1, h.2 0 doubleCompute⟩

/-- C5: a derived cell whose compute begins with a read of the cell itself
(any continuation `k`) fails with `CyclicDependency`, the error is cached as
that cell's computed error, and the evaluator returns instead of recursing
unboundedly; in the concrete two-cell cycle of `envCyc` the transitive
self-read fails the same way, is cached, and propagates to the innocent
dependent at identity 3 like any compute failure. -/
theorem self_read_yields_cyclic_dependency (env : AtomId → AtomConfig) (X : AtomId)
    (k : Val → RunSt → CompRes) (fuel : Nat)
    (hr : (env X).read = .custom (readThen X k)) (hi : (env X).init = none) :
    ((readAtomAux env (fuel + 1) [] X []).1 = .error .cyclicDependency ∧
     (lookupCell (readAtomAux env (fuel + 1) [] X []).2 X).map (fun c => c.cached) =
       some (some (.error .cyclicDependency))) ∧
    ((readAtomAux envCyc 10 [] 1 []).1 = .error .cyclicDependency ∧
     (lookupCell (readAtomAux envCyc 10 [] 1 []).2 1).map (fun c => c.cached) =
       some (some (.error .cyclicDependency)) ∧
     (readAtomAux envCyc 10 [] 3 []).1 = .error .cyclicDependency) := by
  constructor
  · rw [readAtomAux]
    simp [mkGetter, readThen, hr, hi, lookupCell, setCell, eraseCell]
  · refine ⟨by decide, by decide, by decide⟩

/-- Witness for C5: the directly self-reading cell of `envSelf`. -/
theorem self_read_yields_cyclic_dependency_witness :
    ((readAtomAux envSelf 4 [] 1 []).1 = .error .cyclicDependency ∧
     (lookupCell (readAtomAux envSelf 4 [] 1 []).2 1).map (fun c => c.cached) =
       some (some (.error .cyclicDependency))) ∧
    ((readAtomAux envCyc 10 [] 1 []).1 = .error .cyclicDependency ∧
     (lookupCell (readAtomAux envCyc 10 [] 1 []).2 1).map (fun c => c.cached) =
       some (some (.error .cyclicDependency)) ∧
     (readAtomAux envCyc 10 [] 3 []).1 = .error .cyclicDependency) :=
  self_read_yields_cyclic_dependency envSelf 1 idCont 3 rfl rfl

/-- C6: each `atom` call increments the per-process counter, so two
successive calls (any arguments) return strictly increasing counters and
descriptors with different identity keys. -/
theorem atom_keys_unique (kc : Nat) (r1 : AtomReadArg) (w1 : Option WriteSpec)
    (r2 : AtomReadArg) (w2 : Option WriteSpec) :
    (atom kc r1 w1).2 = kc + 1 ∧
    (atom (atom kc r1 w1).2 r2 w2).2 = kc + 2 ∧
    (((atom kc r1 w1).1.key == (atom (atom kc r1 w1).2 r2 w2).1.key) = false) := by
  have h1 := atom_key_counter kc r1 w1
  have h2 := atom_key_counter (atom kc r1 w1).2 r2 w2
  refine ⟨h1.2, ?_, ?_⟩
  · rw [h2.2, h1.2]
  · rw [h1.1, h2.1, h1.2]
    exact atomKey_ne (by omega)

/-- C7: a descriptor built by `atom` has a write slot iff an explicit write
argument was supplied or the first argument was not a function; an explicit
write argument always lands in the write slot (overriding the default
primitive setter), and a derived cell built from a read function alone has
no write slot. -/
theorem atom_write_presence (kc : Nat) (r : AtomReadArg) (w : Option WriteSpec) :
    ((atom kc r w).1.write.isSome ↔ (w.isSome ∨ r.isFn = false)) ∧
    (∀ wf, w = some wf → (atom kc r w).1.write = some wf) ∧
    (∀ f, r = .fn f → w = none → (atom kc r w).1.write = none) := by
  cases r <;> cases w <;> simp [atom, AtomReadArg.isFn]

/-- Witness for C7 at concrete inputs: an explicit write overriding the
default, and a read-only derived descriptor. -/
theorem atom_write_presence_witness :
    (atom 0 (.value (.num 1)) (some .defaultWrite)).1.write = some .defaultWrite ∧
    (atom 0 (.fn doubleCompute) none).1.write = none :=
  ⟨(atom_write_presence 0 (.value (.num 1)) (some .defaultWrite)).2.1 .defaultWrite rfl,
   (atom_write_presence 0 (.fn doubleCompute) none).2.2 doubleCompute rfl rfl⟩

/-- C8: reading a primitive cell (default read, `init` present) runs the
default compute, whose only tracked read is of the cell itself: the
resulting dependency set is exactly the single itself entry, so the cell
depends on no other cell and only an external write can invalidate it. -/
theorem default_compute_reads_only_itself (env : AtomId → AtomConfig) (P : AtomId)
    (fuel : Nat) (v : Val)
    (hr : (env P).read = .defaultRead) (hi : (env P).init = some v) :
    (readAtomAux env (fuel + 1) [] P []).1 = .ok v ∧
    (lookupCell (readAtomAux env (fuel + 1) [] P []).2 P).map (fun c => c.deps) =
      some [(P, 1)] := by
  rw [readAtomAux]
  simp [mkGetter, defaultRead, hr, hi, lookupCell, setCell, eraseCell, currentVersion,
    depsFresh, show (default : CellState) = ⟨0, none, []⟩ from rfl]

/-- Witness for C8: the primitive cell `atom(1)` of `envOne`. -/
theorem default_compute_reads_only_itself_witness :
    (readAtomAux envOne 3 [] 1 []).1 = .ok (.num 1) ∧
    (lookupCell (readAtomAux envOne 3 [] 1 []).2 1).map (fun c => c.deps) =
      some [(1, 1)] :=
  default_compute_reads_only_itself envOne 1 2 (.num 1) rfl rfl

/-- C9: changing every descriptor's debug label (attaching, removing or
replacing labels) changes no read, no write, and no identity key; the only
output that reflects the label is the diagnostic `atomToString` rendering,
shown on a concrete descriptor with and without a label. -/
theorem debug_label_noninterference (lab : AtomId → Option String)
    (env : AtomId → AtomConfig) :
    (∀ fuel visiting x st,
      readAtomAux (setLabels lab env) fuel visiting x st = readAtomAux env fuel visiting x st) ∧
    (∀ fuel x arg st,
      writeAtomAux (setLabels lab env) fuel x arg st = writeAtomAux env fuel x arg st) ∧
    (∀ i, (setLabels lab env i).key = (env i).key) ∧
    atomToString devMode { key := "atom1", read := .defaultRead, debugLabel := some ("count") } =
      "atom1:count" ∧
    atomToString devMode { key := "atom1", read := .defaultRead } = "atom1" := by
  have hfields : ∀ i, ((setLabels lab env i).read = (env i).read ∧
      (setLabels lab env i).init = (env i).init ∧
      (setLabels lab env i).write = (env i).write) := fun i => ⟨rfl, rfl, rfl⟩
  refine ⟨?_, ?_, fun i => rfl, by decide, rfl⟩
  · intro fuel visiting x st
    exact readAtomAux_congr (setLabels lab env) env hfields fuel visiting x st
  · intro fuel x arg st
    exact writeAtomAux_congr (setLabels lab env) env hfields fuel x arg st

/-- C10: both store entry points of the repository are Day-2 stubs that
throw: neither `createStore` nor `getDefaultStore` ever returns a `Store`
value, so the interface operations can never be invoked on a constructed
store. -/
theorem createStore_throws :
    createStore.isOk = false ∧ getDefaultStore.isOk = false ∧
    createStore = .error ("createStore will be implemented in Day 2") ∧
    getDefaultStore = .error ("getDefaultStore will be implemented in Day 2") :=
  ⟨rfl, rfl, rfl, rfl⟩

end JotaiLearn
